import Mathlib

/-!
Shallow embedding of `src/lib/prerequisite.js` from bitcloud/np: the
pre-publish validation pipeline. The module builds a list of seven checks
(a Listr task list); each check has a title, optional `skip` / `enabled`
gates and an action that may call external commands (npm, git, yarn)
through execa. We embed the external world as an `Env` record holding the
result of each command the checks can issue, and each task as a pure
function from the shared mutable context (`St`) to the updated context
together with a success-or-error result.
-/

namespace Np

/-- Error object of a rejected execa call: the captured output streams.
The exit code is not inspected by any of the checks, so it is omitted. -/
structure ExecErr where
  stdout : String
  stderr : String
deriving Repr, DecidableEq

/-- Result of `execa.stdout(cmd, args)`: the stdout text, or the error. -/
abbrev ExecResult := Except ExecErr String

/-- What a task's rejection carries: either a `new Error(message)` thrown by
the task itself, or a re-raised executor error (`throw err`). -/
inductive TaskError
  | msg (s : String)
  | exec (e : ExecErr)
deriving Repr, DecidableEq

/-- JS value of the `registry` property of a `publishConfig` object. -/
inductive RegistryField
  | absent
  | str (s : String)
  | nonString
deriving Repr, DecidableEq

/-- JS value of `pkg.publishConfig`: undefined (field absent), null, or an
object with a `registry` property. -/
inductive PublishConfig
  | undefined
  | null
  | obj (registry : RegistryField)
deriving Repr, DecidableEq

/-- JS runtime error raised by evaluating an expression. -/
inductive JsError
  | typeError
deriving Repr, DecidableEq

/-- The package descriptor fields read by prerequisite.js: `pkg.name`,
`pkg.version`, `pkg.private` (truthiness as a Bool) and `pkg.publishConfig`. -/
structure Pkg where
  name : String
  version : String
  isPrivate : Bool
  publishConfig : PublishConfig

/-- The option flags read by prerequisite.js: `opts.publish`, `opts.tag`
(truthiness of the supplied dist-tag) and `opts.yarn`. -/
structure Opts where
  publish : Bool
  tag : Bool
  yarn : Bool
deriving Repr, DecidableEq

/-- The Version Oracle (`require('./version')`): the version module is not
part of the sources under scrutiny, so only its interface is fixed here;
the tasks are stated over an arbitrary Oracle. -/
structure Oracle where
  SEMVER_INCREMENTS : List String
  isValidVersionInput : String → Bool
  getNewVersion : String → String → String
  isVersionGreater : String → String → Bool
  isPrereleaseVersion : String → Bool
  isVersionLower : String → String → Bool
  satisfies : String → String → Bool

/-- The external world: the settled result of every command a check can
issue, plus the ambient process state the gates read. `gitRevParse` is a
function of the full ref argument, since the queried ref depends on the
context's tagPrefix and newVersion. `npmPingMs` is the time at which the
`npm ping` promise settles, used by the `pTimeout` wrapper.
`npmVersionsNpm` is the `npm` field of the parsed `npm version --json`
output. -/
structure Env where
  npmPing : ExecResult
  npmPingMs : Nat
  npmWhoami : ExecResult
  npmLsCollaborators : Except ExecErr (List (String × List String))
  gitLsRemote : ExecResult
  npmVersionsNpm : ExecResult
  gitFetch : Except ExecErr Unit
  yarnConfigTagPrefix : ExecResult
  npmConfigTagPrefix : ExecResult
  gitRevParse : String → ExecResult
  nodeVersion : String
  nodeEnvIsTest : Bool

/-- The mutable closure state of the module: `let newVersion = null` and
`let tagPrefix = 'v'`. -/
structure St where
  newVersion : Option String := none
  tagPrefix : String := "v"
deriving Repr, DecidableEq

/-- The initial closure state at module invocation. -/
def initSt : St := {}

/-- JS string interpolation of a possibly-null variable: `${null}` renders
as "null". -/
def jsToString : Option String → String
  | some s => s
  | none => "null"

/-- A Listr task definition: title, `skip` / `enabled` gates (absent gates
default to "run"), and the action, returning the updated closure state and
the settlement of the returned promise. -/
structure Check (σ : Type) where
  title : String
  skip : σ → Bool := fun _ => false
  enabled : σ → Bool := fun _ => true
  task : σ → σ × Except TaskError Unit

/-- The expression `typeof pkg.publishConfig === 'object' && typeof
pkg.publishConfig.registry === 'string'` (prerequisite.js line 10).
`typeof undefined` is 'undefined', so the conjunction short-circuits to
false; `typeof null` is 'object', so the second operand reads a property
of null and raises a TypeError; for an object the result says whether the
`registry` property holds a string. -/
def computeIsExternalRegistry : PublishConfig → Except JsError Bool
  | .undefined => .ok false
  | .null => .error .typeError
  | .obj r =>
    .ok (match r with
      | .str _ => true
      | _ => false)

/-- Whether a character-list pattern occurs as a contiguous sublist. -/
def containsChars (pat : List Char) : List Char → Bool
  | [] => pat.isEmpty
  | c :: rest => pat.isPrefixOf (c :: rest) || containsChars pat rest

/-- Whether a stderr text matches the JS regex /ENEEDAUTH/ (substring). -/
def hasENEEDAUTH (s : String) : Bool :=
  containsChars "ENEEDAUTH".data s.data

/-- Replacement of the first occurrence of a pattern in a character list. -/
def replaceFirstChars (pat repl : List Char) : List Char → List Char
  | [] => []
  | c :: rest =>
    if pat.isPrefixOf (c :: rest) then repl ++ (c :: rest).drop pat.length
    else c :: replaceFirstChars pat repl rest

/-- JS `String.prototype.replace` with a string pattern: replace the first
occurrence only. -/
def replaceFirst (s pat repl : String) : String :=
  ⟨replaceFirstChars pat.data repl.data s.data⟩

/-- Task of "Ping npm registry" (lines 16-19): `pTimeout(execa.stdout('npm',
['ping']).catch(...), 15000, 'Connection to npm registry timed out')`. The
inner catch maps any command failure to the fixed "failed" message; the
pTimeout wrapper wins the race when the inner promise has not settled
within 15000 ms. -/
def pingTask (env : Env) (st : St) : St × Except TaskError Unit :=
  (st,
    if env.npmPingMs < 15000 then
      match env.npmPing with
      | .ok _ => .ok ()
      | .error _ => .error (.msg "Connection to npm registry failed")
    else
      .error (.msg "Connection to npm registry timed out"))

/-- The inner promise chain of the authentication task (lines 31-38):
`execa.stdout('npm', ['access', 'ls-collaborators', pkg.name]).then(...)`,
before the trailing catch. The collaborators output is modelled as the
parsed JSON mapping from username to permission list; `json[username]`
is an association-list lookup. -/
def collaboratorChain (pkg : Pkg) (username : String) (env : Env) :
    Except (ExecErr ⊕ String) Unit :=
  match env.npmLsCollaborators with
  | .error e => .error (.inl e)
  | .ok json =>
    match (json.lookup username) with
    | none =>
      .error (.inr "You do not have write permissions required to publish this package.")
    | some permissions =>
      if permissions.contains "write" then .ok ()
      else
        .error (.inr "You do not have write permissions required to publish this package.")

/-- Task of "Verify user is authenticated" (lines 24-39): whoami with its
error translation, then the collaborator chain with the trailing
`.catch(() => {})`, which maps every rejection of the chain — the lookup
failure as well as the permission error thrown inside the `.then` — to
success. -/
def verifyAuthTask (pkg : Pkg) (env : Env) (st : St) : St × Except TaskError Unit :=
  (st,
    match env.npmWhoami with
    | .error err =>
      .error (.msg (if hasENEEDAUTH err.stderr then
        "You must be logged in to publish packages. Use `npm login` and try again."
      else
        "Authentication error. Use `npm whoami` to troubleshoot."))
    | .ok username =>
      match collaboratorChain pkg username env with
      | .ok _ => .ok ()
      | .error _ => .ok ())

/-- Task of "Check git remote" (lines 43-46): `git ls-remote origin HEAD`,
rewriting "fatal:" to "Git fatal error:" in the stderr on failure. -/
def gitRemoteTask (env : Env) (st : St) : St × Except TaskError Unit :=
  (st,
    match env.gitLsRemote with
    | .ok _ => .ok ()
    | .error err => .error (.msg (replaceFirst err.stderr "fatal:" "Git fatal error:")))

/-- Task of "Validate version" (lines 50-60): reject invalid input with the
enumerated-choices message; otherwise assign `newVersion` and then require
`version.isVersionGreater(pkg.version, newVersion)`. The assignment
happens before the comparison, so the state update survives a failing
comparison, as in the source closure. -/
def validateVersionTask (O : Oracle) (input : String) (pkg : Pkg) (st : St) :
    St × Except TaskError Unit :=
  if !(O.isValidVersionInput input) then
    (st, .error (.msg ("Version should be either " ++
      String.intercalate ", " O.SEMVER_INCREMENTS ++ ", or a valid semver version.")))
  else
    let nv := O.getNewVersion pkg.version input
    let st' : St := { st with newVersion := some nv }
    if !(O.isVersionGreater pkg.version nv) then
      (st', .error (.msg ("New version `" ++ nv ++
        "` should be higher than current version `" ++ pkg.version ++ "`")))
    else
      (st', .ok ())

/-- The dist-tag advisory message of the pre-release check (line 67). -/
def distTagMsg : String :=
  "You must specify a dist-tag using --tag when publishing a pre-release version. This prevents accidentally tagging unstable versions as \"latest\". https://docs.npmjs.com/cli/dist-tag"

/-- Task of "Check for pre-release version" (lines 65-69): throw the
dist-tag message when the package is not private, the computed version is
a pre-release and no explicit tag was given. -/
def preReleaseTask (O : Oracle) (pkg : Pkg) (opts : Opts) (st : St) :
    St × Except TaskError Unit :=
  (st,
    if !pkg.isPrivate && O.isPrereleaseVersion (jsToString st.newVersion) && !opts.tag then
      .error (.msg distTagMsg)
    else
      .ok ())

/-- Task of "Check npm version" (lines 74-79): parse `npm version --json`
and require the npm version to satisfy the known-good range. -/
def npmVersionTask (O : Oracle) (env : Env) (st : St) : St × Except TaskError Unit :=
  (st,
    match env.npmVersionsNpm with
    | .error e => .error (.exec e)
    | .ok npmv =>
      if !(O.satisfies npmv ">=2.15.8 <3.0.0 || >=3.10.1") then
        .error (.msg ("npm@" ++ npmv ++
          " has known issues publishing when running Node.js 6. Please upgrade npm or downgrade Node and publish again. https://github.com/npm/npm/issues/5082"))
      else
        .ok ())

/-- Interpretation of the `git rev-parse --quiet --verify refs/tags/...`
settlement (lines 97-109): success with non-empty output means the tag
exists; a failure with empty stdout and empty stderr means the tag is
absent; any other failure is re-raised. -/
def interpretTagLookup (tag : String) (r : ExecResult) : Except TaskError Unit :=
  match r with
  | .ok output =>
    if output ≠ "" then
      .error (.msg ("Git tag `" ++ tag ++ "` already exists."))
    else
      .ok ()
  | .error err =>
    if err.stdout ≠ "" || err.stderr ≠ "" then
      .error (.exec err)
    else
      .ok ()

/-- Task of "Check git tag existence" (lines 83-110): `git fetch`; then the
package manager's tag-prefix query, whose success overwrites `tagPrefix`
and whose failure is ignored (`(output => { tagPrefix = output }, () => {})`);
then the rev-parse lookup of `refs/tags/{tagPrefix}{newVersion}`,
interpreted by `interpretTagLookup`. -/
def gitTagTask (opts : Opts) (env : Env) (st : St) : St × Except TaskError Unit :=
  match env.gitFetch with
  | .error e => (st, .error (.exec e))
  | .ok _ =>
    let st' : St :=
      match (if opts.yarn then env.yarnConfigTagPrefix else env.npmConfigTagPrefix) with
      | .ok output => { st with tagPrefix := output }
      | .error _ => st
    let tag := st'.tagPrefix ++ jsToString st'.newVersion
    (st', interpretTagLookup tag (env.gitRevParse ("refs/tags/" ++ tag)))

/-- Check 1 of the task list (lines 13-20). -/
def pingCheck (pkg : Pkg) (env : Env) (isExternalRegistry : Bool) : Check St where
  title := "Ping npm registry"
  skip := fun _ => pkg.isPrivate || isExternalRegistry
  task := pingTask env

/-- Check 2 of the task list (lines 21-40). -/
def verifyAuthCheck (pkg : Pkg) (env : Env) (isExternalRegistry : Bool) : Check St where
  title := "Verify user is authenticated"
  skip := fun _ => env.nodeEnvIsTest || pkg.isPrivate || isExternalRegistry
  task := verifyAuthTask pkg env

/-- Check 3 of the task list (lines 41-47). -/
def gitRemoteCheck (env : Env) : Check St where
  title := "Check git remote"
  task := gitRemoteTask env

/-- Check 4 of the task list (lines 48-61). -/
def validateVersionCheck (O : Oracle) (input : String) (pkg : Pkg) : Check St where
  title := "Validate version"
  task := validateVersionTask O input pkg

/-- Check 5 of the task list (lines 62-70). -/
def preReleaseCheck (O : Oracle) (pkg : Pkg) (opts : Opts) : Check St where
  title := "Check for pre-release version"
  enabled := fun _ => opts.publish
  task := preReleaseTask O pkg opts

/-- Check 6 of the task list (lines 71-80). -/
def npmVersionCheck (O : Oracle) (env : Env) : Check St where
  title := "Check npm version"
  skip := fun _ => O.isVersionLower "6.0.0" env.nodeVersion
  task := npmVersionTask O env

/-- Check 7 of the task list (lines 81-111). -/
def gitTagCheck (opts : Opts) (env : Env) : Check St where
  title := "Check git tag existence"
  task := gitTagTask opts env

/-- The task list built by the module (lines 12-112), given the already
computed `isExternalRegistry` constant. -/
def tasks (O : Oracle) (input : String) (pkg : Pkg) (opts : Opts) (env : Env)
    (isExternalRegistry : Bool) : List (Check St) :=
  [ pingCheck pkg env isExternalRegistry,
    verifyAuthCheck pkg env isExternalRegistry,
    gitRemoteCheck env,
    validateVersionCheck O input pkg,
    preReleaseCheck O pkg opts,
    npmVersionCheck O env,
    gitTagCheck opts env ]

/-- The exported function (line 7): evaluate `isExternalRegistry` — which
can raise a TypeError — then build the task list. -/
def prerequisite (O : Oracle) (input : String) (pkg : Pkg) (opts : Opts) (env : Env) :
    Except JsError (List (Check St)) :=
  match computeIsExternalRegistry pkg.publishConfig with
  | .error e => .error e
  | .ok isExternalRegistry => .ok (tasks O input pkg opts env isExternalRegistry)

/-! ### A concrete Version Oracle

The `./version` module required on line 5 is part of the repository but not
among the sources under scrutiny; the spec declares its algorithms a
non-goal and fixes only its interface (§6). The definitions below model
that collaborator from the spec so that the theorems about the tasks can
be instantiated and evaluated on concrete versions. -/

/-- Splitting of a character list on a separator character, keeping empty
groups (the shape of `String.prototype.split`). -/
def splitOnChar (sep : Char) : List Char → List (List Char)
  | [] => [[]]
  | c :: rest =>
    let r := splitOnChar sep rest
    if c = sep then [] :: r
    else
      match r with
      | [] => [[c]]
      | g :: gs => (c :: g) :: gs

/-- Splitting of a character list at the first dash: the core and, when a
dash occurs, the remainder after it. -/
def splitAtDash : List Char → List Char × Option (List Char)
  | [] => ([], none)
  | c :: rest =>
    if c = '-' then ([], some rest)
    else
      let (a, b) := splitAtDash rest
      (c :: a, b)

/-- Decimal reading of a non-empty all-digit character list. -/
def digitsToNatAux : List Char → Nat → Option Nat
  | [], acc => some acc
  | c :: rest, acc =>
    if c.isDigit then digitsToNatAux rest (acc * 10 + (c.toNat - '0'.toNat))
    else none

/-- Decimal reading of a character list: `none` unless non-empty and all
digits. -/
def digitsToNat? (cs : List Char) : Option Nat :=
  match cs with
  | [] => none
  | _ :: _ => digitsToNatAux cs 0

/-- Modelled from the spec: a parsed semantic version — the missing
`./version` module works on dotted `major.minor.patch` cores with an
optional dash-separated pre-release suffix of dot-separated identifiers. -/
structure SemVer where
  major : Nat
  minor : Nat
  patch : Nat
  pre : List (List Char)
deriving Repr, DecidableEq

/-- Modelled from the spec: parsing of an exact semantic version string by
the missing `./version` module. -/
def parseSemver (s : String) : Option SemVer :=
  let (core, pre) := splitAtDash s.data
  match splitOnChar '.' core with
  | [a, b, c] =>
    match digitsToNat? a, digitsToNat? b, digitsToNat? c with
    | some x, some y, some z =>
      some ⟨x, y, z,
        match pre with
        | none => []
        | some p => splitOnChar '.' p⟩
    | _, _, _ => none
  | _ => none

/-- Strict lexicographic order on character lists, a proper prefix sorting
first. -/
def charListLt : List Char → List Char → Bool
  | [], [] => false
  | [], _ :: _ => true
  | _ :: _, [] => false
  | a :: as, b :: bs => if a = b then charListLt as bs else decide (a < b)

/-- Modelled from the spec: comparison of two pre-release identifiers —
numeric identifiers compare numerically and sort below alphanumeric ones,
which compare lexically. -/
def identLt (a b : List Char) : Bool :=
  match digitsToNat? a, digitsToNat? b with
  | some x, some y => decide (x < y)
  | some _, none => true
  | none, some _ => false
  | none, none => charListLt a b

/-- Modelled from the spec: lexicographic comparison of two pre-release
identifier lists of the same core, a shorter list sorting below its
extensions. -/
def preLt : List (List Char) → List (List Char) → Bool
  | [], [] => false
  | [], _ :: _ => true
  | _ :: _, [] => false
  | a :: as, b :: bs => if a = b then preLt as bs else identLt a b

/-- Modelled from the spec: ordering across pre-release presence — a
version with a pre-release suffix sorts below the plain release of the
same core. -/
def preCmpLt (p q : List (List Char)) : Bool :=
  if p.isEmpty then false
  else if q.isEmpty then true
  else preLt p q

/-- Modelled from the spec: the strict order on parsed semantic versions. -/
def semverLtV (a b : SemVer) : Bool :=
  if a.major ≠ b.major then decide (a.major < b.major)
  else if a.minor ≠ b.minor then decide (a.minor < b.minor)
  else if a.patch ≠ b.patch then decide (a.patch < b.patch)
  else preCmpLt a.pre b.pre

/-- Modelled from the spec: the strict order on version strings; an
unparsable operand makes the comparison false. -/
def semverLt (a b : String) : Bool :=
  match parseSemver a, parseSemver b with
  | some x, some y => semverLtV x y
  | _, _ => false

/-- Joining of character-list fragments with a separator character. -/
def joinWithChar (sep : Char) : List (List Char) → List Char
  | [] => []
  | [x] => x
  | x :: xs => x ++ sep :: joinWithChar sep xs

/-- Rendering of a parsed semantic version back to a string. -/
def semverToString (v : SemVer) : String :=
  toString v.major ++ "." ++ toString v.minor ++ "." ++ toString v.patch ++
    (if v.pre.isEmpty then "" else "-" ++ String.mk (joinWithChar '.' v.pre))

/-- Modelled from the spec: the Oracle's enumerable list of recognized
increment keywords. -/
def SEMVER_INCREMENTS : List String :=
  ["patch", "minor", "major", "prepatch", "preminor", "premajor", "prerelease"]

/-- Modelled from the spec: expansion of an increment keyword into a
concrete version, given the current one (glossary: "Increment keyword"). -/
def semverInc (current : String) (keyword : String) : String :=
  match parseSemver current with
  | none => current
  | some v =>
    match keyword with
    | "major" => semverToString ⟨v.major + 1, 0, 0, []⟩
    | "minor" => semverToString ⟨v.major, v.minor + 1, 0, []⟩
    | "patch" => semverToString ⟨v.major, v.minor, v.patch + 1, []⟩
    | "premajor" => semverToString ⟨v.major + 1, 0, 0, [['0']]⟩
    | "preminor" => semverToString ⟨v.major, v.minor + 1, 0, [['0']]⟩
    | "prepatch" => semverToString ⟨v.major, v.minor, v.patch + 1, [['0']]⟩
    | "prerelease" =>
      if v.pre.isEmpty then semverToString ⟨v.major, v.minor, v.patch + 1, [['0']]⟩
      else semverToString ⟨v.major, v.minor, v.patch, v.pre.dropLast ++
        [match digitsToNat? (v.pre.getLastD ['0']) with
         | some n => (toString (n + 1)).data
         | none => ['0']]⟩
    | _ => current

/-- Modelled from the spec: a range comparator such as ">=2.15.8", checked
against a version with the strict order above. -/
def satisfiesComparator (v : String) (c : List Char) : Bool :=
  if ['>', '='].isPrefixOf c then !(semverLt v ⟨c.drop 2⟩)
  else if ['<', '='].isPrefixOf c then !(semverLt ⟨c.drop 2⟩ v)
  else if ['>'].isPrefixOf c then semverLt ⟨c.drop 1⟩ v
  else if ['<'].isPrefixOf c then semverLt v ⟨c.drop 1⟩
  else v.data = c

/-- Modelled from the spec: a range expression — space-separated comparators
conjoined, `||`-separated alternatives disjoined. -/
def satisfiesRange (v r : String) : Bool :=
  (((splitOnChar '|' r.data).filter (fun g => !g.isEmpty)).map
      (fun alt => (splitOnChar ' ' alt).filter (fun c => !c.isEmpty))).any
    fun comparators => comparators.all (satisfiesComparator v)

/-- Modelled from the spec: the missing `./version` module as a concrete
Version Oracle. Valid inputs are the increment keywords and exact semantic
versions; `getNewVersion` expands keywords and passes exact versions
through; `isVersionGreater current candidate` holds when the candidate is
strictly greater; `isPrereleaseVersion` reports a pre-release suffix;
`isVersionLower a b` holds when `a` is strictly lower than `b`, the sense
under which check 6 is skipped when the runtime version exceeds the
minimum threshold (§4.3). -/
def specOracle : Oracle where
  SEMVER_INCREMENTS := SEMVER_INCREMENTS
  isValidVersionInput := fun input =>
    SEMVER_INCREMENTS.contains input || (parseSemver input).isSome
  getNewVersion := fun current input =>
    if SEMVER_INCREMENTS.contains input then semverInc current input else input
  isVersionGreater := fun current candidate => semverLt current candidate
  isPrereleaseVersion := fun v =>
    match parseSemver v with
    | some p => !p.pre.isEmpty
    | none => false
  isVersionLower := fun a b => semverLt a b
  satisfies := satisfiesRange

/-! ### The pipeline runner -/

/-- The pipeline's final outcome (§4.2): success, or the first failing
check's title together with the error its action raised. -/
inductive Outcome
  | success
  | failure (checkTitle : String) (err : TaskError)
deriving Repr, DecidableEq

/-- What happened to one check in a run. `done` and `failed` record the
context state the action was invoked with; `skipped` means a gate excluded
the action; `unreached` means an earlier check aborted the pipeline. -/
inductive CheckStatus (σ : Type)
  | skipped
  | done (stIn : σ)
  | failed (stIn : σ)
  | unreached
deriving Repr, DecidableEq

/-- Result of a pipeline run: the final context state, the outcome, and
one status per check, in declaration order. -/
structure RunResult (σ : Type) where
  finalState : σ
  outcome : Outcome
  trace : List (CheckStatus σ)
deriving Repr, DecidableEq

/-- Modelled from the spec: the task runner (the Listr dependency required
on line 3 is not among the sources under scrutiny). Per §2 and §4.2 the
runner walks the checks in declaration order; a check whose `skip` gate is
true or whose `enabled` gate is false is marked skipped and its action is
never invoked; otherwise the action runs on the current context state, a
success carries the updated state to the next check, and an error aborts
the pipeline: the outcome names the failing check's title and its error,
and no later check runs. The trace records each check's fate. -/
def runChecks {σ : Type} (checks : List (Check σ)) (st : σ) : RunResult σ :=
  match checks with
  | [] => ⟨st, .success, []⟩
  | c :: rest =>
    if c.skip st || !(c.enabled st) then
      let r := runChecks rest st
      ⟨r.finalState, r.outcome, .skipped :: r.trace⟩
    else
      match c.task st with
      | (st', .ok _) =>
        let r := runChecks rest st'
        ⟨r.finalState, r.outcome, .done st :: r.trace⟩
      | (st', .error e) =>
        ⟨st', .failure c.title e, .failed st :: List.replicate rest.length .unreached⟩

theorem runChecks_trace_length {σ : Type} (checks : List (Check σ)) (st : σ) :
    (runChecks checks st).trace.length = checks.length := by
  induction checks generalizing st with
  | nil => rfl
  | cons c rest ih =>
    unfold runChecks
    split
    · simp [ih]
    · rcases h : c.task st with ⟨st', r⟩
      cases r <;> simp [h, ih]

/-- A check excluded by its gates at every state ends skipped or unreached:
its action is never invoked. -/
theorem runChecks_gate {σ : Type} (checks : List (Check σ)) (st : σ) (i : Nat)
    (c : Check σ) (hc : checks[i]? = some c)
    (hg : ∀ s, c.skip s = true ∨ c.enabled s = false) :
    (runChecks checks st).trace[i]? = some .skipped ∨
    (runChecks checks st).trace[i]? = some .unreached := by
  induction checks generalizing st i with
  | nil => simp at hc
  | cons hd rest ih =>
    cases i with
    | zero =>
      simp only [List.getElem?_cons_zero] at hc
      injection hc with hc
      subst hc
      left
      rcases hg st with h | h <;>
        simp [runChecks, h]
    | succ j =>
      simp only [List.getElem?_cons_succ] at hc
      unfold runChecks
      split
      · simpa using ih st j hc
      · rcases h : hd.task st with ⟨st', r⟩
        cases r with
        | ok u => simpa [h] using ih st' _ hc
        | error e =>
          right
          have hj : j < rest.length := (List.getElem?_eq_some.mp hc).1
          simp [h, List.getElem?_replicate, hj]

/-- A failure outcome is always attributed to a check whose action was
invoked and raised that very error: the trace marks it failed. -/
theorem runChecks_failure_src {σ : Type} (checks : List (Check σ)) (st : σ)
    (t : String) (e : TaskError)
    (h : (runChecks checks st).outcome = .failure t e) :
    ∃ (i : Nat) (c : Check σ) (s : σ), checks[i]? = some c ∧ c.title = t ∧
      (runChecks checks st).trace[i]? = some (.failed s) := by
  induction checks generalizing st with
  | nil => simp [runChecks] at h
  | cons hd rest ih =>
    unfold runChecks at h ⊢
    split at h
    · rename_i hgate
      rcases ih st h with ⟨i, c, s, h1, h2, h3⟩
      exact ⟨i + 1, c, s, by simpa using h1, h2, by simp [hgate, h3]⟩
    · rename_i hgate
      rcases htask : hd.task st with ⟨st', r⟩
      rw [htask] at h
      cases r with
      | ok u =>
        rcases ih st' h with ⟨i, c, s, h1, h2, h3⟩
        exact ⟨i + 1, c, s, by simpa using h1, h2, by simp [hgate, htask, h3]⟩
      | error e' =>
        simp only [Outcome.failure.injEq] at h
        exact ⟨0, hd, st, by simp, h.1, by simp [hgate, htask]⟩

/-- A projection of the context preserved by every check's action is
preserved by a whole run. -/
theorem runChecks_preserves {σ α : Type} (f : σ → α) (checks : List (Check σ)) (st : σ)
    (hp : ∀ c ∈ checks, ∀ s, f (c.task s).1 = f s) :
    f (runChecks checks st).finalState = f st := by
  induction checks generalizing st with
  | nil => rfl
  | cons hd rest ih =>
    unfold runChecks
    split
    · exact ih st fun c hm s => hp c (List.mem_cons_of_mem hd hm) s
    · rcases htask : hd.task st with ⟨st', r⟩
      have hst' : f st' = f st := by
        have := hp hd (List.mem_cons_self hd rest) st
        rw [htask] at this
        exact this
      cases r with
      | ok u =>
        simp only [htask]
        rw [ih st' fun c hm s => hp c (List.mem_cons_of_mem hd hm) s, hst']
      | error e => simpa [htask] using hst'

/-- Decomposition of a run at a list split, when the prefix succeeds: the
suffix runs on the prefix's final state. -/
theorem runChecks_append_success {σ : Type} (l1 l2 : List (Check σ)) (st : σ)
    (h : (runChecks l1 st).outcome = .success) :
    runChecks (l1 ++ l2) st =
      ⟨(runChecks l2 (runChecks l1 st).finalState).finalState,
       (runChecks l2 (runChecks l1 st).finalState).outcome,
       (runChecks l1 st).trace ++ (runChecks l2 (runChecks l1 st).finalState).trace⟩ := by
  induction l1 generalizing st with
  | nil => rfl
  | cons hd rest ih =>
    by_cases hgate : (hd.skip st || !hd.enabled st) = true
    · simp only [List.cons_append, runChecks, if_pos hgate] at h ⊢
      simp [ih st h]
    · rcases htask : hd.task st with ⟨st', r⟩
      cases r with
      | ok u =>
        simp only [List.cons_append, runChecks, if_neg hgate, htask] at h ⊢
        simp [ih st' h]
      | error e =>
        simp only [List.cons_append, runChecks, if_neg hgate, htask] at h
        simp at h

/-- Decomposition of a run at a list split, when the prefix fails: the
suffix is entirely unreached. -/
theorem runChecks_append_failure {σ : Type} (l1 l2 : List (Check σ)) (st : σ)
    (t : String) (e : TaskError)
    (h : (runChecks l1 st).outcome = .failure t e) :
    runChecks (l1 ++ l2) st =
      ⟨(runChecks l1 st).finalState, .failure t e,
       (runChecks l1 st).trace ++ List.replicate l2.length .unreached⟩ := by
  induction l1 generalizing st with
  | nil => simp [runChecks] at h
  | cons hd rest ih =>
    by_cases hgate : (hd.skip st || !hd.enabled st) = true
    · simp only [List.cons_append, runChecks, if_pos hgate] at h ⊢
      simp [ih st h]
    · rcases htask : hd.task st with ⟨st', r⟩
      cases r with
      | ok u =>
        simp only [List.cons_append, runChecks, if_neg hgate, htask] at h ⊢
        simp [ih st' h]
      | error e' =>
        simp only [List.cons_append, runChecks, if_neg hgate, htask] at h ⊢
        simp only [Outcome.failure.injEq] at h
        rw [h.1, h.2]
        simp only [List.append_eq, List.length_append, List.replicate_add, List.cons_append]

/-! ### Concrete fixtures for instantiating the theorems -/

/-- A package descriptor with every network-relevant flag off. -/
def basePkg : Pkg where
  name := "foo"
  version := "1.2.3"
  isPrivate := false
  publishConfig := .undefined

/-- An option set requesting publish with an explicit tag, npm flavour. -/
def baseOpts : Opts where
  publish := true
  tag := true
  yarn := false

/-- An environment in which every external command succeeds promptly and
the queried git tag is absent (rev-parse fails with silent streams). -/
def baseEnv : Env where
  npmPing := .ok "pong"
  npmPingMs := 10
  npmWhoami := .ok "alice"
  npmLsCollaborators := .ok [("alice", ["read", "write"])]
  gitLsRemote := .ok "0000 HEAD"
  npmVersionsNpm := .ok "3.10.1"
  gitFetch := .ok ()
  yarnConfigTagPrefix := .ok "v"
  npmConfigTagPrefix := .ok "v"
  gitRevParse := fun _ => .error ⟨"", ""⟩
  nodeVersion := "8.0.0"
  nodeEnvIsTest := false

/-! ### The claims -/

/-- C10: constructing the pipeline is not total in the package descriptor:
for a null `publishConfig` the exported function raises a TypeError while
computing `isExternalRegistry`, before any check list exists; for an
undefined or object-valued `publishConfig` construction succeeds, and the
computed `isExternalRegistry` flag is true exactly when the `registry`
property holds a string. -/
theorem prerequisite_totality (O : Oracle) (input : String) (pkg : Pkg)
    (opts : Opts) (env : Env) :
    (pkg.publishConfig = .null →
      prerequisite O input pkg opts env = .error .typeError) ∧
    (pkg.publishConfig = .undefined →
      prerequisite O input pkg opts env = .ok (tasks O input pkg opts env false)) ∧
    (∀ r : RegistryField, pkg.publishConfig = .obj r →
      ∃ b : Bool, prerequisite O input pkg opts env = .ok (tasks O input pkg opts env b) ∧
        (b = true ↔ ∃ s, r = .str s)) := by
  refine ⟨fun h => ?_, fun h => ?_, fun r h => ?_⟩
  · simp [prerequisite, computeIsExternalRegistry, h]
  · simp [prerequisite, computeIsExternalRegistry, h]
  · cases r with
    | absent => exact ⟨false, by simp [prerequisite, computeIsExternalRegistry, h], by simp⟩
    | str s => exact ⟨true, by simp [prerequisite, computeIsExternalRegistry, h], by simp⟩
    | nonString => exact ⟨false, by simp [prerequisite, computeIsExternalRegistry, h], by simp⟩

/-- Witness for C10 at concrete inputs: a null publishConfig raises the
TypeError, and a string registry yields an external-registry pipeline. -/
theorem prerequisite_totality_witness :
    prerequisite specOracle "patch" { basePkg with publishConfig := .null } baseOpts baseEnv =
      .error .typeError ∧
    prerequisite specOracle "patch" { basePkg with publishConfig := .obj (.str "https://r.example") }
        baseOpts baseEnv =
      .ok (tasks specOracle "patch" { basePkg with publishConfig := .obj (.str "https://r.example") }
        baseOpts baseEnv true) := by
  constructor
  · exact (prerequisite_totality specOracle "patch"
      { basePkg with publishConfig := .null } baseOpts baseEnv).1 rfl
  · rcases (prerequisite_totality specOracle "patch"
      { basePkg with publishConfig := .obj (.str "https://r.example") } baseOpts baseEnv).2.2
      (.str "https://r.example") rfl with ⟨b, hb, hiff⟩
    rwa [hiff.2 ⟨"https://r.example", rfl⟩] at hb

/-- C7: the ping check's gates exclude it exactly when the package is
private or an external registry is configured; when it runs, the call is
bounded by the 15000 ms deadline: a command failure that settles within
the deadline yields the fixed "failed" message while deadline expiry
yields the "timed out" message, both as ordinary message failures of the
same shape, and the two messages differ. -/
theorem ping_check_policy (pkg : Pkg) (env : Env) (ext : Bool) (s : St) :
    ((pingCheck pkg env ext).skip s || !(pingCheck pkg env ext).enabled s) =
      (pkg.isPrivate || ext) ∧
    (env.npmPingMs < 15000 → ∀ o, env.npmPing = .ok o →
      ((pingCheck pkg env ext).task s).2 = .ok ()) ∧
    (env.npmPingMs < 15000 → ∀ e, env.npmPing = .error e →
      ((pingCheck pkg env ext).task s).2 =
        .error (.msg "Connection to npm registry failed")) ∧
    (15000 ≤ env.npmPingMs →
      ((pingCheck pkg env ext).task s).2 =
        .error (.msg "Connection to npm registry timed out")) ∧
    "Connection to npm registry failed" ≠ "Connection to npm registry timed out" := by
  refine ⟨by simp [pingCheck], fun hms o ho => ?_, fun hms e he => ?_, fun hms => ?_, by decide⟩
  · simp [pingCheck, pingTask, hms, ho]
  · simp [pingCheck, pingTask, hms, he]
  · simp [pingCheck, pingTask, Nat.not_lt.mpr hms]

/-- Witness for C7: with a ping that settles only after 20000 ms the check
fails with the timeout message; with a prompt rejection it fails with the
connection-failed message. -/
theorem ping_check_policy_witness :
    ((pingCheck basePkg { baseEnv with npmPingMs := 20000 } false).task initSt).2 =
      .error (.msg "Connection to npm registry timed out") ∧
    ((pingCheck basePkg { baseEnv with npmPing := .error ⟨"", "ECONN"⟩ } false).task initSt).2 =
      .error (.msg "Connection to npm registry failed") := by
  constructor
  · exact (ping_check_policy basePkg { baseEnv with npmPingMs := 20000 } false initSt).2.2.2.1
      (by decide)
  · exact (ping_check_policy basePkg { baseEnv with npmPing := .error ⟨"", "ECONN"⟩ } false
      initSt).2.2.1 (by decide) ⟨"", "ECONN"⟩ rfl

/-- C9: the "Check npm version" check's skip gate is exactly the Oracle
comparison `isVersionLower("6.0.0", runtimeVersion)` — under the modelled
Oracle, a strict comparison, so the check is skipped exactly when the
runtime version strictly exceeds the 6.0.0 threshold, and a runtime of
exactly 6.0.0 is not skipped. -/
theorem npm_version_skip_threshold (env : Env) (s : St) :
    (npmVersionCheck specOracle env).skip s = semverLt "6.0.0" env.nodeVersion ∧
    (env.nodeVersion = "6.0.0" → (npmVersionCheck specOracle env).skip s = false) := by
  refine ⟨rfl, fun h => ?_⟩
  simp only [npmVersionCheck, specOracle, h]
  decide

/-- Witness for C9: at runtime version exactly 6.0.0 the check is not
skipped, while at 8.0.0 it is. -/
theorem npm_version_skip_threshold_witness :
    (npmVersionCheck specOracle { baseEnv with nodeVersion := "6.0.0" }).skip initSt = false ∧
    (npmVersionCheck specOracle baseEnv).skip initSt = true := by
  constructor
  · exact (npm_version_skip_threshold { baseEnv with nodeVersion := "6.0.0" } initSt).2 rfl
  · rw [(npm_version_skip_threshold baseEnv initSt).1]
    decide

/-- C8: the tag-prefix resolution of the git-tag check is best-effort:
once the fetch has succeeded, a failing package-manager config query
leaves `tagPrefix` at its current value — "v" when the default is still in
place — and the check proceeds to the tag lookup, its outcome being
exactly the lookup's interpretation; a successful query overwrites
`tagPrefix` with the query's output. -/
theorem tag_prefix_best_effort (opts : Opts) (env : Env) (st : St)
    (hfetch : env.gitFetch = .ok ()) :
    (∀ e, (if opts.yarn then env.yarnConfigTagPrefix else env.npmConfigTagPrefix) = .error e →
      gitTagTask opts env st =
        (st, interpretTagLookup (st.tagPrefix ++ jsToString st.newVersion)
          (env.gitRevParse ("refs/tags/" ++ (st.tagPrefix ++ jsToString st.newVersion))))) ∧
    (∀ out, (if opts.yarn then env.yarnConfigTagPrefix else env.npmConfigTagPrefix) = .ok out →
      gitTagTask opts env st =
        ({ st with tagPrefix := out },
          interpretTagLookup (out ++ jsToString st.newVersion)
            (env.gitRevParse ("refs/tags/" ++ (out ++ jsToString st.newVersion))))) := by
  constructor
  · intro e he
    simp [gitTagTask, hfetch, he]
  · intro out hout
    simp [gitTagTask, hfetch, hout]

/-- Witness for C8: with a failing npm config query and the tag absent,
the check still resolves successfully and the ref it queried used the
default prefix "v". -/
theorem tag_prefix_best_effort_witness :
    gitTagTask baseOpts { baseEnv with npmConfigTagPrefix := .error ⟨"", "no npm"⟩ }
        { newVersion := some "1.2.4", tagPrefix := "v" } =
      ({ newVersion := some "1.2.4", tagPrefix := "v" }, .ok ()) := by
  have h := (tag_prefix_best_effort baseOpts
    { baseEnv with npmConfigTagPrefix := .error ⟨"", "no npm"⟩ }
    { newVersion := some "1.2.4", tagPrefix := "v" } rfl).1 ⟨"", "no npm"⟩ rfl
  rw [h]
  rfl

/-- C2: interpretation of the git ref lookup for `{tagPrefix}{newVersion}`
in the git-tag check: a successful lookup with non-empty output fails the
check with the tag-already-exists message naming the full tag; a failed
lookup with empty stdout and empty stderr is treated as "tag absent" and
the check succeeds; a failed lookup with output on either stream is
re-raised as the check's failure. `p` is the resolved tag prefix. -/
theorem git_tag_lookup_policy (opts : Opts) (env : Env) (st : St) (p : String)
    (hfetch : env.gitFetch = .ok ())
    (hp : p = match (if opts.yarn then env.yarnConfigTagPrefix else env.npmConfigTagPrefix) with
      | .ok o => o
      | .error _ => st.tagPrefix) :
    (∀ out, env.gitRevParse ("refs/tags/" ++ (p ++ jsToString st.newVersion)) = .ok out →
      out ≠ "" →
      (gitTagTask opts env st).2 =
        .error (.msg ("Git tag `" ++ (p ++ jsToString st.newVersion) ++ "` already exists."))) ∧
    (∀ err, env.gitRevParse ("refs/tags/" ++ (p ++ jsToString st.newVersion)) = .error err →
      err.stdout = "" → err.stderr = "" →
      (gitTagTask opts env st).2 = .ok ()) ∧
    (∀ err, env.gitRevParse ("refs/tags/" ++ (p ++ jsToString st.newVersion)) = .error err →
      err.stdout ≠ "" ∨ err.stderr ≠ "" →
      (gitTagTask opts env st).2 = .error (.exec err)) := by
  subst hp
  cases hconf : (if opts.yarn then env.yarnConfigTagPrefix else env.npmConfigTagPrefix) with
  | error e =>
    refine ⟨fun out hl hne => ?_, fun err hl h1 h2 => ?_, fun err hl hor => ?_⟩
    · simp only [hconf] at hl ⊢
      simp [gitTagTask, interpretTagLookup, hfetch, hconf, hl, hne]
    · simp only [hconf] at hl ⊢
      simp [gitTagTask, interpretTagLookup, hfetch, hconf, hl, h1, h2]
    · simp only [hconf] at hl ⊢
      rcases hor with h | h <;>
        simp [gitTagTask, interpretTagLookup, hfetch, hconf, hl, h]
  | ok out0 =>
    refine ⟨fun out hl hne => ?_, fun err hl h1 h2 => ?_, fun err hl hor => ?_⟩
    · simp only [hconf] at hl ⊢
      simp [gitTagTask, interpretTagLookup, hfetch, hconf, hl, hne]
    · simp only [hconf] at hl ⊢
      simp [gitTagTask, interpretTagLookup, hfetch, hconf, hl, h1, h2]
    · simp only [hconf] at hl ⊢
      rcases hor with h | h <;>
        simp [gitTagTask, interpretTagLookup, hfetch, hconf, hl, h]

/-- Witness for C2, realizing Scenario E: the lookup for `v1.2.4` succeeds
with output "abcd1234", and the check fails with the message naming
`v1.2.4`. -/
theorem git_tag_lookup_policy_witness :
    (gitTagTask baseOpts
        { baseEnv with gitRevParse := fun r =>
            if r = "refs/tags/v1.2.4" then .ok "abcd1234" else .error ⟨"", ""⟩ }
        { newVersion := some "1.2.4", tagPrefix := "v" }).2 =
      .error (.msg "Git tag `v1.2.4` already exists.") := by
  have h := (git_tag_lookup_policy baseOpts
    { baseEnv with gitRevParse := fun r =>
        if r = "refs/tags/v1.2.4" then .ok "abcd1234" else .error ⟨"", ""⟩ }
    { newVersion := some "1.2.4", tagPrefix := "v" } "v" rfl rfl).1 "abcd1234" (by rfl)
    (by decide)
  exact h

/-- C3: the version-validation check rejects every input the Oracle's
validity predicate refuses, with the enumerated-choices message; otherwise
it stores `getNewVersion(currentVersion, input)` as `newVersion` in the
context and fails with a message naming both versions exactly when the
Oracle comparison does not put `newVersion` strictly above the current
version. -/
theorem validate_version_policy (O : Oracle) (input : String) (pkg : Pkg) (st : St) :
    (O.isValidVersionInput input = false →
      validateVersionTask O input pkg st =
        (st, .error (.msg ("Version should be either " ++
          String.intercalate ", " O.SEMVER_INCREMENTS ++ ", or a valid semver version.")))) ∧
    (O.isValidVersionInput input = true →
      (validateVersionTask O input pkg st).1.newVersion =
        some (O.getNewVersion pkg.version input) ∧
      (O.isVersionGreater pkg.version (O.getNewVersion pkg.version input) = false →
        (validateVersionTask O input pkg st).2 =
          .error (.msg ("New version `" ++ O.getNewVersion pkg.version input ++
            "` should be higher than current version `" ++ pkg.version ++ "`"))) ∧
      (O.isVersionGreater pkg.version (O.getNewVersion pkg.version input) = true →
        (validateVersionTask O input pkg st).2 = .ok ())) := by
  refine ⟨fun hinv => ?_, fun hv => ⟨?_, fun hng => ?_, fun hg => ?_⟩⟩
  · simp [validateVersionTask, hinv]
  · rcases hng : O.isVersionGreater pkg.version (O.getNewVersion pkg.version input) with _ | _ <;>
      simp [validateVersionTask, hv, hng]
  · simp [validateVersionTask, hv, hng]
  · simp [validateVersionTask, hv, hg]

/-- Witness for C3, realizing Scenario B: input "1.0.0" against current
version "1.2.3" is valid, is stored as the new version, and fails the
greater-than requirement with the message naming both versions. -/
theorem validate_version_policy_witness :
    (validateVersionTask specOracle "1.0.0" basePkg initSt).1.newVersion = some "1.0.0" ∧
    (validateVersionTask specOracle "1.0.0" basePkg initSt).2 =
      .error (.msg "New version `1.0.0` should be higher than current version `1.2.3`") := by
  have h := (validate_version_policy specOracle "1.0.0" basePkg initSt).2 (by decide)
  exact ⟨h.1, h.2.1 (by decide)⟩

/-- The fixture for C1: whoami succeeds as "alice"; the collaborator
lookup succeeds, with a mapping that does not contain alice. -/
def c1Env : Env :=
  { baseEnv with npmLsCollaborators := .ok [("bob", ["write"])] }

/-- C1 (code bug): in the authentication check, after whoami succeeds as
"alice" and the collaborator lookup succeeds with a mapping in which alice
is absent, the inner chain rejects with the write-permission error — yet
the trailing `.catch(() => {})` is attached after the permission test, so
it swallows that rejection too, and the check resolves successfully. The
claimed allow-list limited to the lookup's own failure does not match the
code: the catch is a catch-all. -/
theorem auth_catch_swallows_permission_error :
    c1Env.npmWhoami = .ok "alice" ∧
    collaboratorChain basePkg "alice" c1Env =
      .error (.inr "You do not have write permissions required to publish this package.") ∧
    (verifyAuthTask basePkg c1Env initSt).2 = .ok () := by
  refine ⟨rfl, ?_, ?_⟩ <;> rfl

/-- The fixture for C4: a private package, publish requested, no explicit
dist-tag. -/
def c4Pkg : Pkg := { basePkg with isPrivate := true }

/-- The option set of the C4 counterexample. -/
def c4Opts : Opts := { publish := true, tag := false, yarn := false }

/-- C4 is refuted as stated: with a private package, publish requested, a
pre-release new version and no explicit dist-tag, the pre-release check is
not skipped — its action is invoked (the trace marks it done at index 4) —
and it does not fail: the whole pipeline succeeds. The claim predicted the
check would be skipped for a private package and would fail whenever it
runs on a pre-release version without an explicit tag. -/
theorem pre_release_private_counterexample :
    c4Pkg.isPrivate = true ∧ c4Opts.publish = true ∧ c4Opts.tag = false ∧
    specOracle.isPrereleaseVersion "2.0.0-beta.1" = true ∧
    (runChecks (tasks specOracle "2.0.0-beta.1" c4Pkg c4Opts baseEnv false) initSt).trace[4]? =
      some (.done ⟨some "2.0.0-beta.1", "v"⟩) ∧
    (runChecks (tasks specOracle "2.0.0-beta.1" c4Pkg c4Opts baseEnv false) initSt).outcome =
      .success := by
  refine ⟨rfl, rfl, rfl, by decide, by decide, by decide⟩

/-- C4 (amended): the pre-release check's action runs exactly when the
operator requested publish — the private flag does not gate the action,
which is reported as executed, not skipped, for a private package — and
when it runs it fails, always with the dist-tag message, precisely when
the package is not private, the Oracle reports the stored newVersion a
pre-release, and no explicit dist-tag was supplied. -/
theorem pre_release_policy (O : Oracle) (pkg : Pkg) (opts : Opts) (s st : St) :
    (preReleaseCheck O pkg opts).enabled s = opts.publish ∧
    (preReleaseCheck O pkg opts).skip s = false ∧
    (((preReleaseCheck O pkg opts).task st).2 = .error (.msg distTagMsg) ↔
      pkg.isPrivate = false ∧ O.isPrereleaseVersion (jsToString st.newVersion) = true ∧
        opts.tag = false) ∧
    (∀ e, ((preReleaseCheck O pkg opts).task st).2 = .error e → e = .msg distTagMsg) := by
  refine ⟨rfl, rfl, ?_, ?_⟩
  · cases hp : pkg.isPrivate <;> cases ht : opts.tag <;>
      cases hpre : O.isPrereleaseVersion (jsToString st.newVersion) <;>
      simp [preReleaseCheck, preReleaseTask, hp, ht, hpre]
  · intro e he
    cases hp : pkg.isPrivate <;> cases ht : opts.tag <;>
      cases hpre : O.isPrereleaseVersion (jsToString st.newVersion) <;>
      simp [preReleaseCheck, preReleaseTask, hp, ht, hpre] at he <;>
      exact he.symm

/-- Witness for the amended C4, realizing Scenario C: not private, publish
requested, pre-release 2.0.0-beta.1, no tag — the action fails with the
dist-tag message. -/
theorem pre_release_policy_witness :
    ((preReleaseCheck specOracle basePkg c4Opts).task
        { newVersion := some "2.0.0-beta.1", tagPrefix := "v" }).2 =
      .error (.msg distTagMsg) :=
  (pre_release_policy specOracle basePkg c4Opts initSt
    { newVersion := some "2.0.0-beta.1", tagPrefix := "v" }).2.2.1.mpr
    ⟨rfl, by decide, rfl⟩

/-- The titles of the seven checks, in declaration order. -/
theorem tasks_titles (O : Oracle) (input : String) (pkg : Pkg) (opts : Opts) (env : Env)
    (ext : Bool) :
    (tasks O input pkg opts env ext).map (fun c => c.title) =
      ["Ping npm registry", "Verify user is authenticated", "Check git remote",
       "Validate version", "Check for pre-release version", "Check npm version",
       "Check git tag existence"] := rfl

/-- C5: for every check of the pipeline, whenever its gates exclude
execution — `skip` true or `enabled` false — the check's action is never
invoked (its trace entry is skipped, or unreached when an earlier check
aborted) and the pipeline outcome is never a failure attributed to that
check's title. -/
theorem gate_exclusion_policy (O : Oracle) (input : String) (pkg : Pkg) (opts : Opts)
    (env : Env) (ext : Bool) (st : St) (i : Nat) (c : Check St)
    (hc : (tasks O input pkg opts env ext)[i]? = some c)
    (hg : ∀ s, c.skip s = true ∨ c.enabled s = false) :
    ((runChecks (tasks O input pkg opts env ext) st).trace[i]? = some .skipped ∨
     (runChecks (tasks O input pkg opts env ext) st).trace[i]? = some .unreached) ∧
    ∀ e, (runChecks (tasks O input pkg opts env ext) st).outcome ≠ .failure c.title e := by
  have hmain := runChecks_gate _ st i c hc hg
  refine ⟨hmain, fun e hout => ?_⟩
  obtain ⟨j, c', s, hj, ht, htr⟩ := runChecks_failure_src _ st _ e hout
  have hmap_i : ((tasks O input pkg opts env ext).map (fun c => c.title))[i]? =
      some c.title := by
    rw [List.getElem?_map, hc]
    rfl
  have hmap_j : ((tasks O input pkg opts env ext).map (fun c => c.title))[j]? =
      some c.title := by
    rw [List.getElem?_map, hj]
    simpa using ht
  have hnd : ((tasks O input pkg opts env ext).map (fun c => c.title)).Nodup := by
    rw [tasks_titles]
    decide
  have hlen : i < ((tasks O input pkg opts env ext).map (fun c => c.title)).length :=
    (List.getElem?_eq_some.mp hmap_i).1
  have hij : i = j := List.getElem?_inj hlen hnd (by rw [hmap_i, hmap_j])
  rw [← hij] at htr
  rcases hmain with h | h <;> rw [h] at htr <;> simp at htr

/-- Witness for C5: with a private package the ping check's gates exclude
it at every state; in a concrete run its trace entry is skipped or
unreached and the outcome is not a ping failure. -/
theorem gate_exclusion_policy_witness :
    ((runChecks (tasks specOracle "patch" c4Pkg baseOpts baseEnv false) initSt).trace[0]? =
        some .skipped ∨
     (runChecks (tasks specOracle "patch" c4Pkg baseOpts baseEnv false) initSt).trace[0]? =
        some .unreached) ∧
    (runChecks (tasks specOracle "patch" c4Pkg baseOpts baseEnv false) initSt).outcome ≠
      .failure "Ping npm registry" (.msg "Connection to npm registry failed") := by
  have h := gate_exclusion_policy specOracle "patch" c4Pkg baseOpts baseEnv false initSt 0
    (pingCheck c4Pkg baseEnv false) rfl (fun s => Or.inl rfl)
  exact ⟨h.1, h.2 (.msg "Connection to npm registry failed")⟩

/-- The first component of the validate-version task on success: the input
was valid and the computed new version was stored. -/
theorem validateVersionTask_ok_newVersion (O : Oracle) (input : String) (pkg : Pkg)
    (st st' : St) (u : Unit)
    (h : validateVersionTask O input pkg st = (st', Except.ok u)) :
    st'.newVersion = some (O.getNewVersion pkg.version input) := by
  unfold validateVersionTask at h
  rcases hvv : O.isValidVersionInput input with _ | _
  · simp [hvv] at h
  · rcases hg : O.isVersionGreater pkg.version (O.getNewVersion pkg.version input) with _ | _
    · simp [hvv, hg] at h
    · simp [hvv, hg] at h
      rw [← h]

/-- The git-tag task never changes the stored new version. -/
theorem gitTagTask_fst_newVersion (opts : Opts) (env : Env) (s : St) :
    (gitTagTask opts env s).1.newVersion = s.newVersion := by
  unfold gitTagTask
  cases hf : env.gitFetch with
  | error e => rfl
  | ok u =>
    cases hc : (if opts.yarn then env.yarnConfigTagPrefix else env.npmConfigTagPrefix) with
    | error e => rfl
    | ok o => rfl

/-- A run of a single check, unfolded. -/
theorem runChecks_singleton {σ : Type} (c : Check σ) (st : σ) :
    runChecks [c] st =
      if c.skip st || !c.enabled st then ⟨st, .success, [.skipped]⟩
      else
        match c.task st with
        | (st', .ok _) => ⟨st', .success, [.done st]⟩
        | (st', .error e) => ⟨st', .failure c.title e, [.failed st]⟩ := by
  rw [runChecks]
  split
  · rfl
  · rcases h : c.task st with ⟨st', res⟩
    cases res <;> simp [runChecks, h]

/-- After the first four checks succeed, the final state carries the
computed new version and the trace marks the validate-version check done
on the state the first three checks produced. -/
theorem pipeline_prefix4 (O : Oracle) (input : String) (pkg : Pkg) (env : Env) (ext : Bool)
    (hout : (runChecks ([pingCheck pkg env ext, verifyAuthCheck pkg env ext,
        gitRemoteCheck env] ++ [validateVersionCheck O input pkg]) initSt).outcome =
      .success) :
    (runChecks ([pingCheck pkg env ext, verifyAuthCheck pkg env ext,
        gitRemoteCheck env] ++ [validateVersionCheck O input pkg]) initSt).finalState.newVersion =
      some (O.getNewVersion pkg.version input) ∧
    (runChecks ([pingCheck pkg env ext, verifyAuthCheck pkg env ext,
        gitRemoteCheck env] ++ [validateVersionCheck O input pkg]) initSt).trace[3]? =
      some (.done (runChecks [pingCheck pkg env ext, verifyAuthCheck pkg env ext,
        gitRemoteCheck env] initSt).finalState) := by
  cases hout3 : (runChecks [pingCheck pkg env ext, verifyAuthCheck pkg env ext,
      gitRemoteCheck env] initSt).outcome with
  | failure t e =>
    rw [runChecks_append_failure _ _ _ _ _ hout3] at hout
    simp at hout
  | success =>
    have happ := runChecks_append_success
      [pingCheck pkg env ext, verifyAuthCheck pkg env ext, gitRemoteCheck env]
      [validateVersionCheck O input pkg] initSt hout3
    rw [happ] at hout ⊢
    simp only at hout ⊢
    rw [runChecks_singleton] at hout ⊢
    have hgate : ((validateVersionCheck O input pkg).skip
          (runChecks [pingCheck pkg env ext, verifyAuthCheck pkg env ext,
            gitRemoteCheck env] initSt).finalState ||
        !(validateVersionCheck O input pkg).enabled
          (runChecks [pingCheck pkg env ext, verifyAuthCheck pkg env ext,
            gitRemoteCheck env] initSt).finalState) = false := rfl
    rw [hgate] at hout ⊢
    simp only [Bool.false_eq_true, if_false] at hout ⊢
    simp only [validateVersionCheck] at hout ⊢
    rcases hvt : validateVersionTask O input pkg
        (runChecks [pingCheck pkg env ext, verifyAuthCheck pkg env ext,
          gitRemoteCheck env] initSt).finalState with ⟨st', res⟩
    cases res with
    | error e =>
      simp only [hvt] at hout
      simp at hout
    | ok u =>
      simp only [hvt] at hout ⊢
      have hlen : (runChecks [pingCheck pkg env ext, verifyAuthCheck pkg env ext,
          gitRemoteCheck env] initSt).trace.length = 3 := by
        rw [runChecks_trace_length]
        rfl
      constructor
      · simpa using validateVersionTask_ok_newVersion O input pkg _ st' u hvt
      · rw [List.getElem?_append_right (by omega)]
        simp [hlen]

/-- If the pre-release check's action is invoked in a pipeline run — the
trace at index 4 marks it done or failed on a state — that state carries
the new version computed by the validate-version check, which completed
successfully before it. -/
theorem pipeline_state_at_preRelease (O : Oracle) (input : String) (pkg : Pkg)
    (opts : Opts) (env : Env) (ext : Bool) (s : St)
    (h : (runChecks (tasks O input pkg opts env ext) initSt).trace[4]? = some (.done s) ∨
         (runChecks (tasks O input pkg opts env ext) initSt).trace[4]? = some (.failed s)) :
    s.newVersion = some (O.getNewVersion pkg.version input) ∧
    ∃ s3, (runChecks (tasks O input pkg opts env ext) initSt).trace[3]? =
      some (.done s3) := by
  have hsplit : tasks O input pkg opts env ext =
      ([pingCheck pkg env ext, verifyAuthCheck pkg env ext, gitRemoteCheck env] ++
        [validateVersionCheck O input pkg]) ++
      [preReleaseCheck O pkg opts, npmVersionCheck O env, gitTagCheck opts env] := rfl
  rw [hsplit] at h ⊢
  have hlen4 : (runChecks ([pingCheck pkg env ext, verifyAuthCheck pkg env ext,
      gitRemoteCheck env] ++ [validateVersionCheck O input pkg]) initSt).trace.length = 4 := by
    rw [runChecks_trace_length]
    rfl
  cases hout4 : (runChecks ([pingCheck pkg env ext, verifyAuthCheck pkg env ext,
      gitRemoteCheck env] ++ [validateVersionCheck O input pkg]) initSt).outcome with
  | failure t e =>
    rw [runChecks_append_failure _ _ _ _ _ hout4] at h
    simp only at h
    rw [List.getElem?_append_right (by omega)] at h
    rw [runChecks_trace_length] at h
    simp at h
  | success =>
    have hpre := pipeline_prefix4 O input pkg env ext hout4
    rw [runChecks_append_success _ _ _ hout4] at h ⊢
    simp only at h ⊢
    rw [List.getElem?_append_right (by omega)] at h
    simp only [hlen4, Nat.sub_self] at h
    rw [runChecks] at h
    cases hpub : opts.publish with
    | false =>
      simp [preReleaseCheck, hpub] at h
    | true =>
      simp only [preReleaseCheck, hpub, Bool.or_false, Bool.not_true, Bool.false_or,
        Bool.not_false] at h
      rcases hres : preReleaseTask O pkg opts (runChecks ([pingCheck pkg env ext,
          verifyAuthCheck pkg env ext, gitRemoteCheck env] ++
          [validateVersionCheck O input pkg]) initSt).finalState with ⟨s4', res⟩
      simp only [hres] at h
      constructor
      · cases res <;> simp at h <;>
          (rcases h with h | h) <;> first
            | (rw [← h]; exact hpre.1)
            | simp_all
      · refine ⟨(runChecks [pingCheck pkg env ext, verifyAuthCheck pkg env ext,
          gitRemoteCheck env] initSt).finalState, ?_⟩
        rw [List.getElem?_append]
        simp only [hlen4]
        simp only [show (3:Nat) < 4 from by omega, if_true]
        exact hpre.2

/-- If the git-tag check's action is invoked in a pipeline run — the trace
at index 6 marks it done or failed on a state — that state carries the new
version computed by the validate-version check, which completed
successfully before it. -/
theorem pipeline_state_at_gitTag (O : Oracle) (input : String) (pkg : Pkg)
    (opts : Opts) (env : Env) (ext : Bool) (s : St)
    (h : (runChecks (tasks O input pkg opts env ext) initSt).trace[6]? = some (.done s) ∨
         (runChecks (tasks O input pkg opts env ext) initSt).trace[6]? = some (.failed s)) :
    s.newVersion = some (O.getNewVersion pkg.version input) ∧
    ∃ s3, (runChecks (tasks O input pkg opts env ext) initSt).trace[3]? =
      some (.done s3) := by
  have hsplit : tasks O input pkg opts env ext =
      ([pingCheck pkg env ext, verifyAuthCheck pkg env ext, gitRemoteCheck env] ++
        [validateVersionCheck O input pkg]) ++
      [preReleaseCheck O pkg opts, npmVersionCheck O env, gitTagCheck opts env] := rfl
  rw [hsplit] at h ⊢
  have hlen4 : (runChecks ([pingCheck pkg env ext, verifyAuthCheck pkg env ext,
      gitRemoteCheck env] ++ [validateVersionCheck O input pkg]) initSt).trace.length = 4 := by
    rw [runChecks_trace_length]
    rfl
  cases hout4 : (runChecks ([pingCheck pkg env ext, verifyAuthCheck pkg env ext,
      gitRemoteCheck env] ++ [validateVersionCheck O input pkg]) initSt).outcome with
  | failure t e =>
    rw [runChecks_append_failure _ _ _ _ _ hout4] at h
    simp only at h
    rw [List.getElem?_append_right (by omega)] at h
    rw [runChecks_trace_length] at h
    simp at h
  | success =>
    have hpre := pipeline_prefix4 O input pkg env ext hout4
    rw [runChecks_append_success _ _ _ hout4] at h ⊢
    simp only at h ⊢
    rw [List.getElem?_append_right (by omega)] at h
    simp only [hlen4] at h
    have hsplit2 : ([preReleaseCheck O pkg opts, npmVersionCheck O env, gitTagCheck opts env] :
        List (Check St)) =
      [preReleaseCheck O pkg opts, npmVersionCheck O env] ++ [gitTagCheck opts env] := rfl
    rw [hsplit2] at h
    have hlen2 : (runChecks [preReleaseCheck O pkg opts, npmVersionCheck O env]
        (runChecks ([pingCheck pkg env ext, verifyAuthCheck pkg env ext, gitRemoteCheck env] ++
          [validateVersionCheck O input pkg]) initSt).finalState).trace.length = 2 := by
      rw [runChecks_trace_length]
      rfl
    cases hout2 : (runChecks [preReleaseCheck O pkg opts, npmVersionCheck O env]
        (runChecks ([pingCheck pkg env ext, verifyAuthCheck pkg env ext, gitRemoteCheck env] ++
          [validateVersionCheck O input pkg]) initSt).finalState).outcome with
    | failure t e =>
      rw [runChecks_append_failure _ _ _ _ _ hout2] at h
      simp only at h
      rw [List.getElem?_append_right (by omega)] at h
      rw [runChecks_trace_length] at h
      simp at h
    | success =>
      have hkeep : (runChecks [preReleaseCheck O pkg opts, npmVersionCheck O env]
          (runChecks ([pingCheck pkg env ext, verifyAuthCheck pkg env ext, gitRemoteCheck env] ++
            [validateVersionCheck O input pkg]) initSt).finalState).finalState.newVersion =
          (runChecks ([pingCheck pkg env ext, verifyAuthCheck pkg env ext, gitRemoteCheck env] ++
            [validateVersionCheck O input pkg]) initSt).finalState.newVersion := by
        refine runChecks_preserves (fun st : St => st.newVersion) _ _ ?_
        intro c hc s
        simp only [List.mem_cons, List.not_mem_nil, or_false] at hc
        rcases hc with rfl | rfl <;> rfl
      rw [runChecks_append_success _ _ _ hout2] at h
      simp only at h
      rw [List.getElem?_append_right (by omega)] at h
      simp only [hlen2] at h
      rw [runChecks] at h
      simp only [gitTagCheck, Bool.or_false, Bool.not_true] at h
      rcases hres : gitTagTask opts env (runChecks [preReleaseCheck O pkg opts,
          npmVersionCheck O env] (runChecks ([pingCheck pkg env ext, verifyAuthCheck pkg env ext,
          gitRemoteCheck env] ++ [validateVersionCheck O input pkg])
          initSt).finalState).finalState with ⟨s6', res⟩
      simp only [hres] at h
      constructor
      · cases res <;>
          (simp at h
           subst h
           simp only [List.cons_append, List.nil_append] at hkeep hpre
           rw [hkeep]
           exact hpre.1)
      · refine ⟨(runChecks [pingCheck pkg env ext, verifyAuthCheck pkg env ext,
          gitRemoteCheck env] initSt).finalState, ?_⟩
        rw [List.getElem?_append]
        simp only [hlen4]
        simp only [show (3:Nat) < 4 from by omega, if_true]
        exact hpre.2

/-- C6: `newVersion` has a single writer. The "Validate version" check
appears exactly once in the pipeline; the task of every other check
returns a context with `newVersion` unchanged; and whenever the trace
shows the pre-release check (index 4) or the git-tag check (index 6)
invoked on a state, that state holds the new version computed by the
validate-version check, which completed successfully (marked done at
index 3) beforehand — neither ever observes an unset `newVersion`. -/
theorem new_version_single_writer (O : Oracle) (input : String) (pkg : Pkg)
    (opts : Opts) (env : Env) (ext : Bool) :
    ((tasks O input pkg opts env ext).map (fun c => c.title)).count "Validate version" = 1 ∧
    (∀ s, (pingTask env s).1.newVersion = s.newVersion) ∧
    (∀ s, (verifyAuthTask pkg env s).1.newVersion = s.newVersion) ∧
    (∀ s, (gitRemoteTask env s).1.newVersion = s.newVersion) ∧
    (∀ s, (preReleaseTask O pkg opts s).1.newVersion = s.newVersion) ∧
    (∀ s, (npmVersionTask O env s).1.newVersion = s.newVersion) ∧
    (∀ s, (gitTagTask opts env s).1.newVersion = s.newVersion) ∧
    (∀ s : St,
      ((runChecks (tasks O input pkg opts env ext) initSt).trace[4]? = some (.done s) ∨
       (runChecks (tasks O input pkg opts env ext) initSt).trace[4]? = some (.failed s)) →
      s.newVersion = some (O.getNewVersion pkg.version input) ∧
      ∃ s3, (runChecks (tasks O input pkg opts env ext) initSt).trace[3]? =
        some (.done s3)) ∧
    (∀ s : St,
      ((runChecks (tasks O input pkg opts env ext) initSt).trace[6]? = some (.done s) ∨
       (runChecks (tasks O input pkg opts env ext) initSt).trace[6]? = some (.failed s)) →
      s.newVersion = some (O.getNewVersion pkg.version input) ∧
      ∃ s3, (runChecks (tasks O input pkg opts env ext) initSt).trace[3]? =
        some (.done s3)) := by
  refine ⟨by rw [tasks_titles]; decide, fun s => rfl, fun s => rfl, fun s => rfl, fun s => rfl,
    fun s => rfl, gitTagTask_fst_newVersion opts env, ?_, ?_⟩
  · exact fun s hs => pipeline_state_at_preRelease O input pkg opts env ext s hs
  · exact fun s hs => pipeline_state_at_gitTag O input pkg opts env ext s hs

/-- Witness for C6: in a concrete all-success run the pre-release check is
invoked on a state whose newVersion is exactly the computed version. -/
theorem new_version_single_writer_witness :
    (runChecks (tasks specOracle "1.3.0" basePkg baseOpts baseEnv false) initSt).trace[4]? =
      some (.done ⟨some "1.3.0", "v"⟩) ∧
    (⟨some "1.3.0", "v"⟩ : St).newVersion =
      some (specOracle.getNewVersion basePkg.version "1.3.0") := by
  refine ⟨by decide, ?_⟩
  exact ((new_version_single_writer specOracle "1.3.0" basePkg baseOpts baseEnv
    false).2.2.2.2.2.2.2.1 ⟨some "1.3.0", "v"⟩ (Or.inl (by decide))).1

end Np
